import Mathlib

/-!
Shallow embedding of the `nodejs-yarn` buildpack build orchestration
(`src/buildpacks/nodejs-yarn/src/main.rs`) together with the collaborator
modules it calls.  The collaborator modules (`heroku_nodejs_utils::inv`,
`heroku_nodejs_utils::vrs`, `cmd`, `cfg`, `configure_yarn_cache`,
`install_yarn`, `yarn`) are not part of the provided sources; where a claim
depends on their behaviour they are modelled from the specification, and the
corresponding definition carries a doc comment saying so.
-/

namespace YarnBp

/-- Modelled from the spec: a semantic version (`heroku_nodejs_utils::vrs::Version`
is not under `src/`).  `pre = []` means a plain release; a non-empty `pre`
is a pre-release tag, encoded as a list of identifier codes.  The spec fixes
only that ordering is lexicographic on (major, minor, patch) and that
pre-release tags sort below their corresponding release. -/
structure Version where
  major : Nat
  minor : Nat
  patch : Nat
  pre : List Nat := []
  deriving DecidableEq, Repr

/-- The sort key realising the ordering of §4.1: major, then minor, then
patch; at an equal core a release (`pre.isEmpty = true`) sorts above any
pre-release, and pre-release tags are compared lexicographically. -/
def Version.key (v : Version) : Lex (Nat × Lex (Nat × Lex (Nat × Lex (Bool × List Nat)))) :=
  toLex (v.major, toLex (v.minor, toLex (v.patch, toLex (v.pre.isEmpty, v.pre))))

instance : LT Version := ⟨fun a b => a.key < b.key⟩

instance : LE Version := ⟨fun a b => a.key ≤ b.key⟩

instance (a b : Version) : Decidable (a < b) :=
  inferInstanceAs (Decidable (a.key < b.key))

instance (a b : Version) : Decidable (a ≤ b) :=
  inferInstanceAs (Decidable (a.key ≤ b.key))

/-- Modelled from the spec: a version-range expression
(`heroku_nodejs_utils::vrs::Requirement` is not under `src/`): the raw text
plus its `satisfies` predicate. -/
structure Requirement where
  text : String
  sat : Version → Bool

/-- Modelled from the spec: a catalog entry — a semantic version together
with its artifact location and checksum (`heroku_nodejs_utils::inv::Release`
is not under `src/`). -/
structure Release where
  version : Version
  url : String
  checksum : List Nat
  deriving DecidableEq, Repr

/-- Modelled from the spec: the release catalog
(`heroku_nodejs_utils::inv::Inventory` is not under `src/`). -/
structure Inventory where
  releases : List Release

/-- One step of the highest-version fold: keep the candidate if it is
strictly above the current best. -/
def pickStep (acc : Option Release) (r : Release) : Option Release :=
  match acc with
  | none => some r
  | some m => if m.version.key < r.version.key then some r else some m

/-- Modelled from the spec: `resolve` selects the highest catalog version
satisfying the constraint (`Inventory::resolve` is not under `src/`);
returns `none` when no entry satisfies it. -/
def Inventory.resolve (inv : Inventory) (req : Requirement) : Option Release :=
  (inv.releases.filter fun r => req.sat r.version).foldl pickStep none

lemma pickStep_ne_none (acc : Option Release) (r : Release) : pickStep acc r ≠ none := by
  cases acc with
  | none => simp [pickStep]
  | some m =>
    simp only [pickStep]
    split <;> simp

lemma foldl_pickStep_spec (l : List Release) : ∀ acc : Option Release,
    match l.foldl pickStep acc with
    | none => l = [] ∧ acc = none
    | some m =>
        (acc = some m ∨ m ∈ l)
        ∧ (∀ a, acc = some a → a.version.key ≤ m.version.key)
        ∧ ∀ x ∈ l, x.version.key ≤ m.version.key := by
  induction l with
  | nil =>
    intro acc
    cases acc with
    | none => simp
    | some a =>
      simp only [List.foldl_nil]
      refine ⟨by simp, ?_, by simp⟩
      intro a' ha'
      injection ha' with h
      subst h
      exact le_refl _
  | cons r t ih =>
    intro acc
    have step := ih (pickStep acc r)
    simp only [List.foldl_cons]
    cases hfold : List.foldl pickStep (pickStep acc r) t with
    | none =>
      rw [hfold] at step
      exact absurd step.2 (pickStep_ne_none acc r)
    | some m =>
      rw [hfold] at step
      obtain ⟨hmem, hacc, hall⟩ := step
      -- identify the intermediate accumulator and its relation to `acc` and `r`
      have hr_le : r.version.key ≤ m.version.key := by
        cases acc with
        | none =>
          exact hacc r rfl
        | some m0 =>
          by_cases hlt : m0.version.key < r.version.key
          · exact hacc r (by simp [pickStep, hlt])
          · exact le_trans (le_of_not_lt hlt) (hacc m0 (by simp [pickStep, hlt]))
      refine ⟨?_, ?_, ?_⟩
      · rcases hmem with hstep | hm
        · cases acc with
          | none =>
            simp only [pickStep] at hstep
            cases hstep
            exact Or.inr (List.mem_cons_self _ _)
          | some m0 =>
            simp only [pickStep] at hstep
            split at hstep
            · cases hstep
              exact Or.inr (List.mem_cons_self _ _)
            · cases hstep
              exact Or.inl rfl
        · exact Or.inr (List.mem_cons_of_mem _ hm)
      · intro a ha
        subst ha
        by_cases hlt : a.version.key < r.version.key
        · exact le_trans (le_of_lt hlt) hr_le
        · exact hacc a (by simp [pickStep, hlt])
      · intro x hx
        rcases List.mem_cons.mp hx with hxr | hxt
        · cases hxr
          exact hr_le
        · exact hall x hxt

lemma resolve_some (inv : Inventory) (req : Requirement) (r : Release)
    (h : inv.resolve req = some r) :
    r ∈ inv.releases ∧ req.sat r.version = true ∧
      ∀ s ∈ inv.releases, req.sat s.version = true → s.version.key ≤ r.version.key := by
  have spec := foldl_pickStep_spec (inv.releases.filter fun x => req.sat x.version) none
  rw [Inventory.resolve] at h
  rw [h] at spec
  obtain ⟨hmem, _, hall⟩ := spec
  have hrmem : r ∈ inv.releases.filter fun x => req.sat x.version := by
    rcases hmem with hc | hm
    · cases hc
    · exact hm
  have hr := List.mem_filter.mp hrmem
  refine ⟨hr.1, hr.2, ?_⟩
  intro s hs hsat
  exact hall s (List.mem_filter.mpr ⟨hs, hsat⟩)

lemma resolve_none (inv : Inventory) (req : Requirement)
    (h : inv.resolve req = none) :
    ∀ s ∈ inv.releases, req.sat s.version = false := by
  have spec := foldl_pickStep_spec (inv.releases.filter fun x => req.sat x.version) none
  rw [Inventory.resolve] at h
  rw [h] at spec
  intro s hs
  by_contra hne
  have hsat : req.sat s.version = true := by
    cases hval : req.sat s.version with
    | false => exact absurd hval hne
    | true => rfl
  have : s ∈ inv.releases.filter fun x => req.sat x.version :=
    List.mem_filter.mpr ⟨hs, hsat⟩
  rw [spec.1] at this
  cases this

/-- The three-way cache decision of §4.3. -/
inductive CacheDecision
  | reused
  | invalidated
  | bypassed
  deriving DecidableEq, Repr

/-- A dependency cache layer: directory contents plus the persisted
fingerprint key (§3 CacheLayer). -/
structure CacheLayer where
  contents : List String
  key : Option (List Nat)
  deriving DecidableEq, Repr

/-- Modelled from the spec: the `CacheFingerprint` digest computed over the
lockfile bytes (`configure_yarn_cache` is not under `src/`).  The spec's
invariant is exactly injectivity (equal bytes ⇒ equal fingerprint, any byte
difference ⇒ different fingerprint), so the digest is modelled as the byte
content itself. -/
def cacheFingerprint (lockfile : List Nat) : List Nat := lockfile

/-- Modelled from the spec: `CacheLayerManager.reconcile` (§4.3;
`configure_yarn_cache` is not under `src/`).  Zero-install bypasses the
layer; otherwise the fresh fingerprint is compared against the persisted
key: equal ⇒ retain and `reused`; unequal or absent ⇒ clear contents,
persist the new key, `invalidated`. -/
def reconcile (zeroInstall : Bool) (layer : CacheLayer) (lockfile : List Nat) :
    CacheLayer × CacheDecision :=
  if zeroInstall then (layer, .bypassed)
  else
    let fp := cacheFingerprint lockfile
    match layer.key with
    | some k =>
        if k = fp then (layer, .reused)
        else ({ contents := [], key := some fp }, .invalidated)
    | none => ({ contents := [], key := some fp }, .invalidated)

/-- A tool installation layer: extracted artifact bytes plus the recorded
installed version (§4.2 layer metadata). -/
structure ToolLayer where
  dir : String
  contents : List Nat
  installedVersion : Option Version
  deriving DecidableEq, Repr

/-- Environment mutations produced by installing the tool: the executable
directory prepended to the search path (§4.2). -/
structure ToolEnv where
  binDir : String
  deriving DecidableEq, Repr

/-- Errors of the tool-installation layer (`install_yarn::CliLayerError` is
not under `src/`; variants modelled from the spec §4.2). -/
inductive CliLayerError
  | checksumMismatch (expected actual : List Nat)
  | artifactUnavailable (msg : String)
  deriving DecidableEq, Repr

/-- Modelled from the spec: `ToolInstaller.install` (§4.2; `install_yarn`
is not under `src/`).  Returns the layer state after the call together with
the outcome: reuse in place when the layer already records the release
version; otherwise fetch, verify the checksum (`hash` abstracts the digest
function), and only on a match extract into the layer and record the
version. -/
def installTool (hash : List Nat → List Nat) (release : Release)
    (fetched : Except String (List Nat)) (layer : ToolLayer) :
    ToolLayer × Except CliLayerError ToolEnv :=
  if layer.installedVersion = some release.version then
    (layer, .ok { binDir := layer.dir ++ "/bin" })
  else
    match fetched with
    | .error m => (layer, .error (.artifactUnavailable m))
    | .ok bytes =>
        if hash bytes = release.checksum then
          ({ dir := layer.dir, contents := bytes, installedVersion := some release.version },
           .ok { binDir := layer.dir ++ "/bin" })
        else
          (layer, .error (.checksumMismatch release.checksum (hash bytes)))

/-- The three-way external command outcome classification of §4.4
(`cmd::Error` is not under `src/`; variants modelled from the spec:
spawn failure, non-zero exit, unparsable output). -/
inductive CmdError
  | spawn (msg : String)
  | nonZeroExit (code : Int) (stderr : String)
  | unparsableOutput (output : String)
  deriving DecidableEq, Repr

/-- Modelled from the spec: the display text of a command error, carrying
the offending command's output for diagnosis (§7). -/
def CmdError.display : CmdError → String
  | .spawn m => m
  | .nonZeroExit code stderr => "exit status " ++ toString code ++ ": " ++ stderr
  | .unparsableOutput out => "unexpected output: " ++ out

/-- Error reading or parsing `package.json` (the `PackageJson` collaborator
is external; modelled from the spec §6). -/
inductive PackageJsonError
  | readError (msg : String)
  | parseError (msg : String)
  deriving DecidableEq, Repr

def PackageJsonError.display : PackageJsonError → String
  | .readError m => m
  | .parseError m => m

/-- Error parsing the node build scripts build-plan metadata (external
collaborator; modelled from the spec §6). -/
inductive NodeBuildScriptsMetadataError
  | invalid (msg : String)
  deriving DecidableEq, Repr

/-- Error parsing a version-range string (`vrs::VersionError` is not under
`src/`; modelled from the spec §3). -/
inductive VersionError
  | parseFail (msg : String)
  deriving DecidableEq, Repr

def VersionError.display : VersionError → String
  | .parseFail m => m

/-- A TOML deserialisation error (the `toml` crate is external). -/
structure TomlError where
  msg : String
  deriving DecidableEq, Repr

/-- Error of the dependency cache layer
(`configure_yarn_cache::DepsLayerError` is not under `src/`; modelled from
the spec §4.3). -/
inductive DepsLayerError
  | ioError (msg : String)
  deriving DecidableEq, Repr

def DepsLayerError.display : DepsLayerError → String
  | .ioError m => m

/-- The closed error variant set of the buildpack
(`YarnBuildpackError`, main.rs lines 222–250). -/
inductive YarnBuildpackError
  | buildScript (e : CmdError)
  | cliLayer (e : CliLayerError)
  | depsLayer (e : DepsLayerError)
  | inventoryParse (e : TomlError)
  | packageJson (e : PackageJsonError)
  | yarnCacheGet (e : CmdError)
  | yarnDisableGlobalCache (e : CmdError)
  | yarnInstall (e : CmdError)
  | yarnVersionDetect (e : CmdError)
  | yarnVersionUnsupported (major : Nat)
  | yarnVersionResolve (req : Requirement)
  | yarnDefaultParse (e : VersionError)
  | nodeBuildScriptsMetadata (e : NodeBuildScriptsMetadataError)

/-- Modelled from the spec: display of a `CliLayerError` (its `thiserror`
attributes are not under `src/`). -/
def CliLayerError.display : CliLayerError → String
  | .checksumMismatch _ _ => "checksum mismatch"
  | .artifactUnavailable m => "artifact unavailable: " ++ m

def NodeBuildScriptsMetadataError.display : NodeBuildScriptsMetadataError → String
  | .invalid m => m

/-- The `Display` text of each buildpack error variant, transcribed from
the `#[error(...)]` attributes on `YarnBuildpackError`
(main.rs lines 222–250): each arm preserves the underlying cause. -/
def YarnBuildpackError.display : YarnBuildpackError → String
  | .buildScript e => "Couldn't run build script: " ++ e.display
  | .cliLayer e => e.display
  | .depsLayer e => e.display
  | .inventoryParse e => "Couldn't parse yarn inventory: " ++ e.msg
  | .packageJson e => "Couldn't parse package.json: " ++ e.display
  | .yarnCacheGet e => "Couldn't read yarn cache folder: " ++ e.display
  | .yarnDisableGlobalCache e => "Couldn't disable yarn global cache: " ++ e.display
  | .yarnInstall e => "Yarn install error: " ++ e.display
  | .yarnVersionDetect e => "Couldn't determine yarn version: " ++ e.display
  | .yarnVersionUnsupported major => "Unsupported yarn version: " ++ toString major
  | .yarnVersionResolve req =>
      "Couldn't resolve yarn version requirement (" ++ req.text ++ ") to a known yarn version"
  | .yarnDefaultParse e => "Couldn't parse yarn default version range: " ++ e.display
  | .nodeBuildScriptsMetadata e =>
      "Couldn't parse metadata for the buildplan named node_build_scripts: " ++ e.display

/-- The error handler `YarnBuildpack::on_error` (main.rs lines 177–219)
restricted to buildpack errors: maps each variant to its user-facing
category header, with the error's display text as the message body. -/
def onError (e : YarnBuildpackError) : String × String :=
  match e with
  | .buildScript _ => ("Yarn build script error", e.display)
  | .cliLayer _ => ("Yarn distribution layer error", e.display)
  | .depsLayer _ => ("Yarn dependency layer error", e.display)
  | .inventoryParse _ => ("Yarn inventory parse error", e.display)
  | .packageJson _ => ("Yarn package.json error", e.display)
  | .yarnCacheGet _ => ("Yarn cache error", e.display)
  | .yarnDisableGlobalCache _ => ("Yarn cache error", e.display)
  | .yarnInstall _ => ("Yarn install error", e.display)
  | .yarnVersionDetect _ => ("Yarn version error", e.display)
  | .yarnVersionResolve _ => ("Yarn version error", e.display)
  | .yarnVersionUnsupported _ => ("Yarn version error", e.display)
  | .yarnDefaultParse _ => ("Yarn version error", e.display)
  | .nodeBuildScriptsMetadata _ => ("Yarn buildplan error", e.display)

/-- The fixed set of user-facing category headers used by `on_error`. -/
def errorHeaders : List String :=
  ["Yarn build script error", "Yarn distribution layer error",
   "Yarn dependency layer error", "Yarn inventory parse error",
   "Yarn package.json error", "Yarn cache error", "Yarn install error",
   "Yarn version error", "Yarn buildplan error"]

/-- The project manifest interface (§6): the declared yarn engine range
(absent means the fixed default applies), the declared build script names
in declaration order, and the has-start-script signal (the `PackageJson`
collaborator is external to this core). -/
structure PackageJson where
  yarnEngineRange : Option Requirement
  buildScripts : List String
  hasStartScript : Bool

/-- The collaborator-supplied build-scripts opt-out signal
(`read_node_build_scripts_metadata`; `enabled` is `Option Bool`, main.rs
line 146). -/
structure NodeBuildScriptsMetadata where
  enabled : Option Bool
  deriving DecidableEq, Repr

/-- Modelled from the spec: the closed sum type over supported yarn major
versions (`yarn::Yarn` is not under `src/`; the spec fixes only that it is
a closed sum over supported majors, modelled here as majors 1–4). -/
inductive Yarn
  | yarn1
  | yarn2
  | yarn3
  | yarn4
  deriving DecidableEq, Repr

/-- Modelled from the spec: `Yarn::from_major` — `none` on an unsupported
major version (main.rs lines 120–121 surface that as
`YarnVersionUnsupported`). -/
def Yarn.fromMajor : Nat → Option Yarn
  | 1 => some .yarn1
  | 2 => some .yarn2
  | 3 => some .yarn3
  | 4 => some .yarn4
  | _ => none

/-- A process environment, as an association list of variable bindings. -/
abbrev Env := List (String × String)

/-- Modelled from the spec: applying the installed tool's environment
mutations to the active environment (`yarn_env.apply(Scope::Build, &env)`,
main.rs line 111) — the tool's bin directory is prepended to the search
path. -/
def ToolEnv.apply (te : ToolEnv) (env : Env) : Env :=
  ("PATH", te.binDir) :: env

/-- A launch process descriptor (§3 LaunchProcess). -/
structure LaunchProcess where
  ptype : String
  command : List String
  isDefault : Bool
  deriving DecidableEq, Repr

/-- The build result: the emitted launch processes. -/
structure BuildResult where
  processes : List LaunchProcess
  deriving DecidableEq, Repr

/-- The default web process emitted by the launch phase
(main.rs lines 163–168). -/
def webProcess : LaunchProcess :=
  { ptype := "web", command := ["yarn", "start"], isDefault := true }

/-- The collaborator interface of one build: every external call the
orchestration makes (manifest read, build-plan metadata read, the yarn
version query as a function of the environment, the embedded inventory
parse, the default-range parse, the tool install step, the cache commands,
dependency install, script run, and the Procfile existence check). -/
structure BuildWorld where
  env0 : Env
  packageJson : Except PackageJsonError PackageJson
  scriptsMetadata : Except NodeBuildScriptsMetadataError NodeBuildScriptsMetadata
  yarnVersionCmd : Env → Except CmdError Version
  inventoryToml : Except TomlError Inventory
  parseDefaultRange : Except VersionError Requirement
  installYarnStep : Release → Except CliLayerError ToolEnv
  disableGlobalCacheCmd : Yarn → Env → Except CmdError Unit
  getCacheCmd : Yarn → Env → Except CmdError String
  cachePopulated : String → Bool
  configureCacheStep : Yarn → Env → Except DepsLayerError Unit
  yarnInstallCmd : Yarn → Bool → Env → Except CmdError Unit
  yarnRunCmd : Env → String → Except CmdError Unit
  procfileExists : Bool

/-- Observable build events, recorded in order as each phase step is
attempted. -/
inductive Event
  | versionQuery
  | parseInventory
  | resolveVersion
  | installYarnCli (v : Version)
  | requeryVersion
  | disableGlobalCache
  | getCacheDir
  | configureCache
  | installDeps (zeroInstall : Bool)
  | skipScript (s : String)
  | runScript (s : String)
  | emitLaunch
  deriving DecidableEq, Repr

/-- The bracketed install phase (main.rs lines 80–113): parse the embedded
inventory, take the manifest's engine range or the parsed default, resolve
it against the inventory, install the resolved release, merge its
environment mutations, and re-query the yarn version in the updated
environment. -/
def installPhase (w : BuildWorld) (pkg : PackageJson) (env : Env) :
    Except YarnBuildpackError (Version × Env) × List Event :=
  match w.inventoryToml with
  | .error e => (.error (.inventoryParse e), [.parseInventory])
  | .ok inventory =>
      let rangeRes : Except YarnBuildpackError Requirement :=
        match pkg.yarnEngineRange with
        | none =>
            match w.parseDefaultRange with
            | .ok r => .ok r
            | .error e => .error (.yarnDefaultParse e)
        | some r => .ok r
      match rangeRes with
      | .error e => (.error e, [.parseInventory])
      | .ok range =>
          match inventory.resolve range with
          | none => (.error (.yarnVersionResolve range), [.parseInventory, .resolveVersion])
          | some release =>
              match w.installYarnStep release with
              | .error e =>
                  (.error (.cliLayer e),
                   [.parseInventory, .resolveVersion, .installYarnCli release.version])
              | .ok toolEnv =>
                  let env2 := toolEnv.apply env
                  match w.yarnVersionCmd env2 with
                  | .error e =>
                      (.error (.yarnVersionDetect e),
                       [.parseInventory, .resolveVersion, .installYarnCli release.version,
                        .requeryVersion])
                  | .ok v =>
                      (.ok (v, env2),
                       [.parseInventory, .resolveVersion, .installYarnCli release.version,
                        .requeryVersion])

/-- The build-scripts loop (main.rs lines 145–154): each declared script in
declaration order is skipped when the opt-out signal is explicitly `false`,
and otherwise run, a non-zero run aborting with `BuildScript`. -/
def scriptsPhase (w : BuildWorld) (env : Env) (enabled : Option Bool) :
    List String → Except YarnBuildpackError Unit × List Event
  | [] => (.ok (), [])
  | s :: rest =>
      if enabled = some false then
        let (res, tr) := scriptsPhase w env enabled rest
        (res, .skipScript s :: tr)
      else
        match w.yarnRunCmd env s with
        | .error e => (.error (.buildScript e), [.runScript s])
        | .ok _ =>
            let (res, tr) := scriptsPhase w env enabled rest
            (res, .runScript s :: tr)

/-- The launch-metadata phase (main.rs lines 157–174): a default web
process (`yarn start`) only when no Procfile exists and the manifest has a
start script. -/
def launchPhase (w : BuildWorld) (pkg : PackageJson) : BuildResult × List Event :=
  if w.procfileExists then ({ processes := [] }, [])
  else if pkg.hasStartScript then ({ processes := [webProcess] }, [.emitLaunch])
  else ({ processes := [] }, [])

/-- The phases after the yarn version is known (main.rs lines 120–174):
unsupported-major check, disable the global cache, inspect the tool's cache
directory for zero-install, configure the dependency cache layer unless
bypassed, install dependencies with the cache decision passed through, run
build scripts, emit launch metadata. -/
def afterVersion (w : BuildWorld) (pkg : PackageJson) (meta : NodeBuildScriptsMetadata)
    (yarnVersion : Version) (env : Env) :
    Except YarnBuildpackError BuildResult × List Event :=
  match Yarn.fromMajor yarnVersion.major with
  | none => (.error (.yarnVersionUnsupported yarnVersion.major), [])
  | some yarn =>
      match w.disableGlobalCacheCmd yarn env with
      | .error e => (.error (.yarnDisableGlobalCache e), [.disableGlobalCache])
      | .ok _ =>
          match w.getCacheCmd yarn env with
          | .error e => (.error (.yarnCacheGet e), [.disableGlobalCache, .getCacheDir])
          | .ok cacheDir =>
              let zeroInstall := w.cachePopulated cacheDir
              let cacheStep : Except YarnBuildpackError Unit × List Event :=
                if zeroInstall then (.ok (), [])
                else
                  match w.configureCacheStep yarn env with
                  | .error e => (.error (.depsLayer e), [.configureCache])
                  | .ok _ => (.ok (), [.configureCache])
              match cacheStep with
              | (.error e, tr) => (.error e, [.disableGlobalCache, .getCacheDir] ++ tr)
              | (.ok _, tr) =>
                  match w.yarnInstallCmd yarn zeroInstall env with
                  | .error e =>
                      (.error (.yarnInstall e),
                       [.disableGlobalCache, .getCacheDir] ++ tr ++ [.installDeps zeroInstall])
                  | .ok _ =>
                      match scriptsPhase w env meta.enabled pkg.buildScripts with
                      | (.error e, str) =>
                          (.error e,
                           [.disableGlobalCache, .getCacheDir] ++ tr
                             ++ [.installDeps zeroInstall] ++ str)
                      | (.ok _, str) =>
                          let (res, ltr) := launchPhase w pkg
                          (.ok res,
                           [.disableGlobalCache, .getCacheDir] ++ tr
                             ++ [.installDeps zeroInstall] ++ str ++ ltr)

/-- The build orchestration `YarnBuildpack::build` (main.rs lines 71–175):
read the manifest and the build-plan metadata, query the yarn version, and
branch — a spawn failure takes the install phase, a success uses the
existing installation as-is, any other failure is fatal
(`YarnVersionDetect`); then the common phase tail. -/
def build (w : BuildWorld) : Except YarnBuildpackError BuildResult × List Event :=
  match w.packageJson with
  | .error e => (.error (.packageJson e), [])
  | .ok pkg =>
      match w.scriptsMetadata with
      | .error e => (.error (.nodeBuildScriptsMetadata e), [])
      | .ok meta =>
          match w.yarnVersionCmd w.env0 with
          | .error (.spawn _) =>
              match installPhase w pkg w.env0 with
              | (.error e, tr) => (.error e, .versionQuery :: tr)
              | (.ok (v, env), tr) =>
                  let (res, tr2) := afterVersion w pkg meta v env
                  (res, .versionQuery :: (tr ++ tr2))
          | .ok v =>
              let (res, tr2) := afterVersion w pkg meta v w.env0
              (res, .versionQuery :: tr2)
          | .error e => (.error (.yarnVersionDetect e), [.versionQuery])

/-! Helper lemmas about the shapes of phase traces. -/

lemma scriptsPhase_events (w : BuildWorld) (env : Env) (en : Option Bool) :
    ∀ (l : List String) (ev : Event), ev ∈ (scriptsPhase w env en l).2 →
      (∃ s, ev = .runScript s) ∨ ∃ s, ev = .skipScript s := by
  intro l
  induction l with
  | nil => intro ev hev; simp [scriptsPhase] at hev
  | cons s rest ih =>
    intro ev hev
    by_cases hen : en = some false
    · simp only [scriptsPhase, if_pos hen] at hev
      rcases List.mem_cons.mp hev with h | h
      · exact Or.inr ⟨s, h⟩
      · exact ih ev h
    · simp only [scriptsPhase, if_neg hen] at hev
      cases hrun : w.yarnRunCmd env s with
      | error e =>
        rw [hrun] at hev
        simp at hev
        exact Or.inl ⟨s, hev⟩
      | ok u =>
        rw [hrun] at hev
        simp only at hev
        rcases List.mem_cons.mp hev with h | h
        · exact Or.inl ⟨s, h⟩
        · exact ih ev h

lemma launchPhase_events (w : BuildWorld) (pkg : PackageJson) :
    ∀ ev ∈ (launchPhase w pkg).2, ev = Event.emitLaunch := by
  intro ev hev
  unfold launchPhase at hev
  split at hev
  · simp at hev
  · split at hev
    · simp at hev
      exact hev
    · simp at hev

lemma afterVersion_events (w : BuildWorld) (pkg : PackageJson)
    (meta : NodeBuildScriptsMetadata) (v : Version) (env : Env) :
    ∀ ev ∈ (afterVersion w pkg meta v env).2,
      ev = .disableGlobalCache ∨ ev = .getCacheDir ∨ ev = .configureCache
      ∨ (∃ b, ev = .installDeps b) ∨ (∃ s, ev = .runScript s)
      ∨ (∃ s, ev = .skipScript s) ∨ ev = .emitLaunch := by
  intro ev hev
  unfold afterVersion at hev
  cases hmaj : Yarn.fromMajor v.major with
  | none => simp [hmaj] at hev
  | some yarn =>
    simp only [hmaj] at hev
    cases hdis : w.disableGlobalCacheCmd yarn env with
    | error e => simp [hdis] at hev; tauto
    | ok u =>
      simp only [hdis] at hev
      cases hget : w.getCacheCmd yarn env with
      | error e => simp [hget] at hev; tauto
      | ok cacheDir =>
        simp only [hget] at hev
        cases hz : w.cachePopulated cacheDir with
        | true =>
          simp only [hz, if_true] at hev
          cases hins : w.yarnInstallCmd yarn true env with
          | error e =>
            simp [hins] at hev
            rcases hev with h | h | h
            · tauto
            · tauto
            · exact Or.inr (Or.inr (Or.inr (Or.inl ⟨true, h⟩)))
          | ok u2 =>
            simp only [hins] at hev
            cases hsp : scriptsPhase w env meta.enabled pkg.buildScripts with
            | mk spRes spTr =>
              simp only [hsp] at hev
              cases spRes with
              | error e =>
                simp at hev
                rcases hev with h | h | h | h
                · tauto
                · tauto
                · exact Or.inr (Or.inr (Or.inr (Or.inl ⟨true, h⟩)))
                · have := scriptsPhase_events w env meta.enabled pkg.buildScripts ev (by rw [hsp]; exact h)
                  tauto
              | ok u3 =>
                simp at hev
                rcases hev with h | h | h | h | h
                · tauto
                · tauto
                · exact Or.inr (Or.inr (Or.inr (Or.inl ⟨true, h⟩)))
                · have := scriptsPhase_events w env meta.enabled pkg.buildScripts ev (by rw [hsp]; exact h)
                  tauto
                · have := launchPhase_events w pkg ev h
                  tauto
        | false =>
          simp only [hz, if_false] at hev
          cases hcfg : w.configureCacheStep yarn env with
          | error e => simp [hcfg] at hev; tauto
          | ok u1 =>
            simp only [hcfg] at hev
            cases hins : w.yarnInstallCmd yarn false env with
            | error e =>
              simp [hins] at hev
              rcases hev with h | h | h | h
              · tauto
              · tauto
              · tauto
              · exact Or.inr (Or.inr (Or.inr (Or.inl ⟨false, h⟩)))
            | ok u2 =>
              simp only [hins] at hev
              cases hsp : scriptsPhase w env meta.enabled pkg.buildScripts with
              | mk spRes spTr =>
                simp only [hsp] at hev
                cases spRes with
                | error e =>
                  simp at hev
                  rcases hev with h | h | h | h | h
                  · tauto
                  · tauto
                  · tauto
                  · exact Or.inr (Or.inr (Or.inr (Or.inl ⟨false, h⟩)))
                  · have := scriptsPhase_events w env meta.enabled pkg.buildScripts ev (by rw [hsp]; exact h)
                    tauto
                | ok u3 =>
                  simp at hev
                  rcases hev with h | h | h | h | h | h
                  · tauto
                  · tauto
                  · tauto
                  · exact Or.inr (Or.inr (Or.inr (Or.inl ⟨false, h⟩)))
                  · have := scriptsPhase_events w env meta.enabled pkg.buildScripts ev (by rw [hsp]; exact h)
                    tauto
                  · have := launchPhase_events w pkg ev h
                    tauto

/-! Further helper lemmas. -/

lemma scriptsPhase_disabled (w : BuildWorld) (env : Env) :
    ∀ l, scriptsPhase w env (some false) l = (.ok (), l.map Event.skipScript) := by
  intro l
  induction l with
  | nil => simp [scriptsPhase]
  | cons s rest ih => simp [scriptsPhase, ih]

lemma scriptsPhase_all_ok (w : BuildWorld) (env : Env) (en : Option Bool)
    (hen : en ≠ some false) :
    ∀ l, (∀ s ∈ l, w.yarnRunCmd env s = .ok ()) →
      scriptsPhase w env en l = (.ok (), l.map Event.runScript) := by
  intro l
  induction l with
  | nil => intro _; simp [scriptsPhase]
  | cons s rest ih =>
    intro hall
    have hs := hall s (List.mem_cons_self s rest)
    simp only [scriptsPhase, if_neg hen, hs]
    rw [ih fun t ht => hall t (List.mem_cons_of_mem s ht)]
    simp

lemma scriptsPhase_first_fail (w : BuildWorld) (env : Env) (en : Option Bool)
    (hen : en ≠ some false) :
    ∀ (pre : List String) (s : String) (rest : List String) (e : CmdError),
      (∀ t ∈ pre, w.yarnRunCmd env t = .ok ()) →
      w.yarnRunCmd env s = .error e →
      scriptsPhase w env en (pre ++ s :: rest) =
        (.error (.buildScript e), pre.map Event.runScript ++ [Event.runScript s]) := by
  intro pre
  induction pre with
  | nil =>
    intro s rest e _ hfail
    simp only [List.nil_append, scriptsPhase, if_neg hen, hfail]
    simp
  | cons p pre ih =>
    intro s rest e hall hfail
    have hp := hall p (List.mem_cons_self p pre)
    simp only [List.cons_append, scriptsPhase, if_neg hen, hp]
    simp only [List.append_eq]
    rw [ih s rest e (fun t ht => hall t (List.mem_cons_of_mem p ht)) hfail]
    simp

lemma installPhase_parseInventory (w : BuildWorld) (pkg : PackageJson) (env : Env) :
    Event.parseInventory ∈ (installPhase w pkg env).2 := by
  unfold installPhase
  cases hinv : w.inventoryToml with
  | error e => simp
  | ok inventory =>
    cases hr : pkg.yarnEngineRange with
    | some r =>
      cases hres : inventory.resolve r with
      | none => simp [hres]
      | some release =>
        simp only [hres]
        cases hi : w.installYarnStep release with
        | error e => simp [hi]
        | ok te =>
          simp only [hi]
          cases hv2 : w.yarnVersionCmd (te.apply env) <;> simp [hv2]
    | none =>
      cases hd : w.parseDefaultRange with
      | error e => simp [hd]
      | ok r =>
        simp only [hd]
        cases hres : inventory.resolve r with
        | none => simp [hres]
        | some release =>
          simp only [hres]
          cases hi : w.installYarnStep release with
          | error e => simp [hi]
          | ok te =>
            simp only [hi]
            cases hv2 : w.yarnVersionCmd (te.apply env) <;> simp [hv2]

lemma scriptsPhase_congr (w w' : BuildWorld) (env : Env) (en : Option Bool)
    (h : w.yarnRunCmd = w'.yarnRunCmd) :
    ∀ l, scriptsPhase w env en l = scriptsPhase w' env en l := by
  intro l
  induction l with
  | nil => simp [scriptsPhase]
  | cons s rest ih => simp [scriptsPhase, h, ih]

lemma launchPhase_congr (w w' : BuildWorld) (pkg pkg' : PackageJson)
    (h1 : w.procfileExists = w'.procfileExists)
    (h2 : pkg.hasStartScript = pkg'.hasStartScript) :
    launchPhase w pkg = launchPhase w' pkg' := by
  simp [launchPhase, h1, h2]

lemma afterVersion_congr (w w' : BuildWorld) (pkg pkg' : PackageJson)
    (meta : NodeBuildScriptsMetadata) (v : Version) (env : Env)
    (hd : w.disableGlobalCacheCmd = w'.disableGlobalCacheCmd)
    (hg : w.getCacheCmd = w'.getCacheCmd)
    (hc : w.cachePopulated = w'.cachePopulated)
    (hcfg : w.configureCacheStep = w'.configureCacheStep)
    (hi : w.yarnInstallCmd = w'.yarnInstallCmd)
    (hr : w.yarnRunCmd = w'.yarnRunCmd)
    (hpf : w.procfileExists = w'.procfileExists)
    (hbs : pkg.buildScripts = pkg'.buildScripts)
    (hst : pkg.hasStartScript = pkg'.hasStartScript) :
    afterVersion w pkg meta v env = afterVersion w' pkg' meta v env := by
  unfold afterVersion
  rw [hd, hg, hc, hcfg, hi, hbs,
    scriptsPhase_congr w w' env meta.enabled hr pkg'.buildScripts,
    launchPhase_congr w w' pkg pkg' hpf hst]

lemma reconcile_key (layer : CacheLayer) (lock : List Nat) :
    ((reconcile false layer lock).1).key = some (cacheFingerprint lock) := by
  cases hk : layer.key with
  | none => simp [reconcile, hk]
  | some k =>
    by_cases he : k = cacheFingerprint lock
    · simp [reconcile, hk, he, cacheFingerprint]
    · simp [reconcile, hk, he]

lemma afterVersion_ok (w : BuildWorld) (pkg : PackageJson)
    (meta : NodeBuildScriptsMetadata) (v : Version) (env : Env)
    (res : BuildResult) (tr : List Event)
    (h : afterVersion w pkg meta v env = (.ok res, tr)) :
    res = (launchPhase w pkg).1 := by
  unfold afterVersion at h
  cases hmaj : Yarn.fromMajor v.major with
  | none => simp [hmaj] at h
  | some yarn =>
    simp only [hmaj] at h
    cases hdis : w.disableGlobalCacheCmd yarn env with
    | error e => simp [hdis] at h
    | ok u =>
      simp only [hdis] at h
      cases hget : w.getCacheCmd yarn env with
      | error e => simp [hget] at h
      | ok cacheDir =>
        simp only [hget] at h
        cases hz : w.cachePopulated cacheDir with
        | true =>
          simp only [hz, if_true] at h
          cases hins : w.yarnInstallCmd yarn true env with
          | error e => simp [hins] at h
          | ok u2 =>
            simp only [hins] at h
            cases hsp : scriptsPhase w env meta.enabled pkg.buildScripts with
            | mk spRes spTr =>
              simp only [hsp] at h
              cases spRes with
              | error e => simp at h
              | ok u3 =>
                cases hl : launchPhase w pkg with
                | mk lres ltr =>
                  simp only [hl] at h
                  injection h with h1 h2
                  injection h1 with h1
                  exact h1.symm
        | false =>
          simp only [hz, if_false] at h
          cases hcfg : w.configureCacheStep yarn env with
          | error e => simp [hcfg] at h
          | ok u1 =>
            simp only [hcfg] at h
            cases hins : w.yarnInstallCmd yarn false env with
            | error e => simp [hins] at h
            | ok u2 =>
              simp only [hins] at h
              cases hsp : scriptsPhase w env meta.enabled pkg.buildScripts with
              | mk spRes spTr =>
                simp only [hsp] at h
                cases spRes with
                | error e => simp at h
                | ok u3 =>
                  cases hl : launchPhase w pkg with
                  | mk lres ltr =>
                    simp only [hl] at h
                    injection h with h1 h2
                    injection h1 with h1
                    exact h1.symm

lemma build_ok (w : BuildWorld) (res : BuildResult) (tr : List Event)
    (h : build w = (.ok res, tr)) :
    ∃ pkg, w.packageJson = .ok pkg ∧ res = (launchPhase w pkg).1 := by
  unfold build at h
  cases hp : w.packageJson with
  | error e =>
    rw [hp] at h
    simp at h
  | ok pkg =>
    rw [hp] at h
    simp only at h
    cases hm : w.scriptsMetadata with
    | error e =>
      rw [hm] at h
      simp at h
    | ok meta =>
      rw [hm] at h
      simp only at h
      refine ⟨pkg, rfl, ?_⟩
      cases hv : w.yarnVersionCmd w.env0 with
      | ok v =>
        rw [hv] at h
        simp only at h
        cases haft : afterVersion w pkg meta v w.env0 with
        | mk r2 t2 =>
          rw [haft] at h
          simp only at h
          injection h with h1 h2
          rw [h1] at haft
          exact afterVersion_ok w pkg meta v w.env0 res t2 haft
      | error ce =>
        cases ce with
        | spawn m =>
          rw [hv] at h
          simp only at h
          cases hip : installPhase w pkg w.env0 with
          | mk ipr ipt =>
            rw [hip] at h
            cases ipr with
            | error e =>
              simp at h
            | ok pr =>
              cases pr with
              | mk v2 env2 =>
                simp only at h
                cases haft : afterVersion w pkg meta v2 env2 with
                | mk r2 t2 =>
                  rw [haft] at h
                  simp only at h
                  injection h with h1 h2
                  rw [h1] at haft
                  exact afterVersion_ok w pkg meta v2 env2 res t2 haft
        | nonZeroExit c s =>
          rw [hv] at h
          simp at h
        | unparsableOutput o =>
          rw [hv] at h
          simp at h

/-! Concrete fixtures for witnesses and counterexamples. -/

def v12219 : Version := { major := 1, minor := 22, patch := 19 }

/-- The constraint of §8: "1.22.x" — satisfied by released 1.22.* versions. -/
def req122x : Requirement :=
  { text := "1.22.x", sat := fun v => v.major == 1 && v.minor == 22 && v.pre.isEmpty }

def r1210 : Release :=
  { version := { major := 1, minor := 21, patch := 0 }, url := "u0", checksum := [0] }

def r1220 : Release :=
  { version := { major := 1, minor := 22, patch := 0 }, url := "u1", checksum := [1] }

def r1221 : Release :=
  { version := { major := 1, minor := 22, patch := 1 }, url := "u2", checksum := [2] }

/-- The catalog of §8: versions 1.21.0, 1.22.0, 1.22.1. -/
def specCatalog : Inventory := { releases := [r1210, r1220, r1221] }

def pkgOk : PackageJson :=
  { yarnEngineRange := none, buildScripts := ["build"], hasStartScript := true }

def metaOk : NodeBuildScriptsMetadata := { enabled := none }

/-- A world where yarn is already installed (version query succeeds), every
later phase succeeds, and — deliberately — the embedded inventory document
is unparsable. -/
def wOk : BuildWorld :=
  { env0 := []
  , packageJson := .ok pkgOk
  , scriptsMetadata := .ok metaOk
  , yarnVersionCmd := fun _ => .ok v12219
  , inventoryToml := .error { msg := "bad" }
  , parseDefaultRange := .ok req122x
  , installYarnStep := fun _ => .error (.artifactUnavailable "never fetched")
  , disableGlobalCacheCmd := fun _ _ => .ok ()
  , getCacheCmd := fun _ _ => .ok "cachedir"
  , cachePopulated := fun _ => false
  , configureCacheStep := fun _ _ => .ok ()
  , yarnInstallCmd := fun _ _ _ => .ok ()
  , yarnRunCmd := fun _ _ => .ok ()
  , procfileExists := false }

/-- A world where the version query fails with a non-spawn error. -/
def wNonZero : BuildWorld :=
  { wOk with yarnVersionCmd := fun _ => .error (.nonZeroExit 1 "boom") }

/-- A world where the version query spawn-fails and the embedded inventory
document is unparsable. -/
def wSpawnBadToml : BuildWorld :=
  { wOk with yarnVersionCmd := fun _ => .error (.spawn "yarn: not found") }

/-- A world on the install path: the first version query (in the empty
starting environment) spawn-fails, the inventory parses, the range comes
from the manifest, the install step succeeds, and the re-query in the
updated environment fails with a non-zero exit. -/
def wRequeryFail : BuildWorld :=
  { wOk with
    packageJson := .ok { pkgOk with yarnEngineRange := some req122x }
  , yarnVersionCmd := fun env =>
      match env with
      | [] => .error (.spawn "yarn: not found")
      | _ => .error (.nonZeroExit 1 "requery boom")
  , inventoryToml := .ok specCatalog
  , installYarnStep := fun _ => .ok { binDir := "/layers/yarn/bin" } }

/-- A world where the tool's cache directory is pre-populated
(zero-install). -/
def wZero : BuildWorld :=
  { wOk with cachePopulated := fun _ => true }

/-! Small dispatchers over the trace-shape lemmas. -/

lemma scripts_no_configure (w : BuildWorld) (env : Env) (en : Option Bool) (l : List String) :
    Event.configureCache ∉ (scriptsPhase w env en l).2 := by
  intro h
  rcases scriptsPhase_events w env en l _ h with ⟨s, hs⟩ | ⟨s, hs⟩ <;> exact Event.noConfusion hs

lemma scripts_no_installDeps (w : BuildWorld) (env : Env) (en : Option Bool) (l : List String)
    (b : Bool) : Event.installDeps b ∉ (scriptsPhase w env en l).2 := by
  intro h
  rcases scriptsPhase_events w env en l _ h with ⟨s, hs⟩ | ⟨s, hs⟩ <;> exact Event.noConfusion hs

lemma launch_no_configure (w : BuildWorld) (pkg : PackageJson) :
    Event.configureCache ∉ (launchPhase w pkg).2 := by
  intro h
  exact Event.noConfusion (launchPhase_events w pkg _ h)

lemma launch_no_installDeps (w : BuildWorld) (pkg : PackageJson) (b : Bool) :
    Event.installDeps b ∉ (launchPhase w pkg).2 := by
  intro h
  exact Event.noConfusion (launchPhase_events w pkg _ h)

/-! The claims. -/

/-- C3: version resolution selects the highest catalog version satisfying
the requested constraint under the semantic-version ordering realised by
`Version.key` (major, minor, patch, pre-release below release); when no
catalog entry satisfies the constraint it yields `none`, which the
orchestrator surfaces as the user-facing `YarnVersionResolve` error (shown
under the "Yarn version error" header), for every constraint and every
catalog. -/
theorem resolve_selects_highest_version (inv : Inventory) (req : Requirement) :
    (∀ r, inv.resolve req = some r →
      r ∈ inv.releases ∧ req.sat r.version = true ∧
        ∀ s ∈ inv.releases, req.sat s.version = true → s.version ≤ r.version)
    ∧ (inv.resolve req = none → ∀ s ∈ inv.releases, req.sat s.version = false)
    ∧ (∀ (w : BuildWorld) (pkg : PackageJson) (env : Env),
        w.inventoryToml = .ok inv → pkg.yarnEngineRange = some req →
        inv.resolve req = none →
        installPhase w pkg env =
          (.error (.yarnVersionResolve req), [.parseInventory, .resolveVersion]))
    ∧ (onError (.yarnVersionResolve req)).1 = "Yarn version error" := by
  refine ⟨?_, resolve_none inv req, ?_, rfl⟩
  · intro r h
    exact resolve_some inv req r h
  · intro w pkg env hinv hrange hres
    simp [installPhase, hinv, hrange, hres]

/-- Witness for C3 at the catalog {1.21.0, 1.22.0, 1.22.1} and the
constraint "1.22.x": resolution returns 1.22.1 and it dominates every
satisfying release. -/
theorem resolve_selects_highest_version_witness :
    specCatalog.resolve req122x = some r1221
    ∧ r1221 ∈ specCatalog.releases
    ∧ ∀ s ∈ specCatalog.releases, req122x.sat s.version = true → s.version ≤ r1221.version := by
  have h := (resolve_selects_highest_version specCatalog req122x).1 r1221 (by rfl)
  exact ⟨by rfl, h.1, h.2.2⟩

/-- C4: cache reconciliation is content-based on the lockfile bytes: a
persisted key equal to the fresh fingerprint retains the layer and returns
`reused`; a differing or absent key clears the contents, persists the new
key and returns `invalidated`; hence byte-identical lockfiles across two
reconcile calls yield `reused` and any difference yields `invalidated`. -/
theorem reconcile_content_based (layer : CacheLayer) (lock : List Nat) :
    (layer.key = some (cacheFingerprint lock) →
      reconcile false layer lock = (layer, .reused))
    ∧ (layer.key ≠ some (cacheFingerprint lock) →
      reconcile false layer lock =
        ({ contents := [], key := some (cacheFingerprint lock) }, .invalidated))
    ∧ (reconcile false (reconcile false layer lock).1 lock).2 = .reused
    ∧ ∀ lock2, lock2 ≠ lock →
        (reconcile false (reconcile false layer lock).1 lock2).2 = .invalidated := by
  refine ⟨?_, ?_, ?_, ?_⟩
  · intro h
    simp [reconcile, h]
  · intro h
    cases hk : layer.key with
    | none => simp [reconcile, hk]
    | some k =>
      have hne : k ≠ cacheFingerprint lock := by
        intro e
        exact h (by rw [hk, e])
      simp [reconcile, hk, hne]
  · set L1 := (reconcile false layer lock).1 with hL1
    have hkey : L1.key = some (cacheFingerprint lock) := reconcile_key layer lock
    simp [reconcile, hkey, cacheFingerprint]
  · intro lock2 hne
    have hne2 : lock ≠ lock2 := fun e => hne e.symm
    set L1 := (reconcile false layer lock).1 with hL1
    have hkey : L1.key = some (cacheFingerprint lock) := reconcile_key layer lock
    simp [reconcile, hkey, cacheFingerprint, hne2]

/-- Witness for C4: a stale key is invalidated and re-keyed, after which
the identical lockfile is reused. -/
theorem reconcile_content_based_witness :
    reconcile false { contents := ["old"], key := some [1, 2] } [3, 4] =
      ({ contents := [], key := some [3, 4] }, .invalidated)
    ∧ (reconcile false
        (reconcile false { contents := ["old"], key := some [1, 2] } [3, 4]).1 [3, 4]).2 =
      CacheDecision.reused := by
  constructor
  · exact (reconcile_content_based { contents := ["old"], key := some [1, 2] } [3, 4]).2.1
      (by decide)
  · exact (reconcile_content_based { contents := ["old"], key := some [1, 2] } [3, 4]).2.2.1

/-- C5: when the tool's cache directory is pre-populated (zero-install),
cache reconciliation is bypassed regardless of lockfile content, and in the
orchestration the dependency cache layer is never configured while the
bypassed decision (`zero_install = true`) is passed through to the
dependency-install step. -/
theorem zero_install_bypasses_cache :
    (∀ (layer : CacheLayer) (lock : List Nat), reconcile true layer lock = (layer, .bypassed))
    ∧ ∀ (w : BuildWorld) (pkg : PackageJson) (meta : NodeBuildScriptsMetadata)
        (v : Version) (yarn : Yarn) (cacheDir : String),
        w.packageJson = .ok pkg → w.scriptsMetadata = .ok meta →
        w.yarnVersionCmd w.env0 = .ok v →
        Yarn.fromMajor v.major = some yarn →
        w.disableGlobalCacheCmd yarn w.env0 = .ok () →
        w.getCacheCmd yarn w.env0 = .ok cacheDir →
        w.cachePopulated cacheDir = true →
        Event.configureCache ∉ (build w).2
        ∧ Event.installDeps true ∈ (build w).2
        ∧ Event.installDeps false ∉ (build w).2 := by
  constructor
  · intro layer lock
    simp [reconcile]
  · intro w pkg meta v yarn cacheDir hp hm hv hmaj hdis hget hz
    cases haft : afterVersion w pkg meta v w.env0 with
    | mk res tr2 =>
      have hb2 : (build w).2 = .versionQuery :: tr2 := by
        simp [build, hp, hm, hv, haft]
      rw [hb2]
      unfold afterVersion at haft
      simp only [hmaj, hdis, hget, hz, if_true] at haft
      cases hins : w.yarnInstallCmd yarn true w.env0 with
      | error e =>
        simp only [hins] at haft
        injection haft with h1 h2
        subst h2
        refine ⟨by simp, by simp, by simp⟩
      | ok u2 =>
        simp only [hins] at haft
        cases hsp : scriptsPhase w w.env0 meta.enabled pkg.buildScripts with
        | mk spRes spTr =>
          simp only [hsp] at haft
          have hc1 : Event.configureCache ∉ spTr := by
            intro hx
            exact scripts_no_configure w w.env0 meta.enabled pkg.buildScripts (by rw [hsp]; exact hx)
          have hc2 : Event.installDeps false ∉ spTr := by
            intro hx
            exact scripts_no_installDeps w w.env0 meta.enabled pkg.buildScripts false
              (by rw [hsp]; exact hx)
          cases spRes with
          | error e =>
            injection haft with h1 h2
            subst h2
            refine ⟨?_, by simp, ?_⟩
            · intro hmem
              simp at hmem
              exact hc1 hmem
            · intro hmem
              simp at hmem
              exact hc2 hmem
          | ok u3 =>
            cases hl : launchPhase w pkg with
            | mk lres ltr =>
              simp only [hl] at haft
              injection haft with h1 h2
              subst h2
              have hc3 : Event.configureCache ∉ ltr := by
                intro hx
                exact launch_no_configure w pkg (by rw [hl]; exact hx)
              have hc4 : Event.installDeps false ∉ ltr := by
                intro hx
                exact launch_no_installDeps w pkg false (by rw [hl]; exact hx)
              refine ⟨?_, by simp, ?_⟩
              · intro hmem
                simp at hmem
                rcases hmem with h | h
                · exact hc1 h
                · exact hc3 h
              · intro hmem
                simp at hmem
                rcases hmem with h | h
                · exact hc2 h
                · exact hc4 h

/-- Witness for C5 in the zero-install world: reconcile is bypassed at a
concrete layer, the build never configures the cache layer, and the
install step receives the bypassed decision. -/
theorem zero_install_bypasses_cache_witness :
    reconcile true { contents := ["c"], key := none } [7] =
      ({ contents := ["c"], key := none }, .bypassed)
    ∧ Event.configureCache ∉ (build wZero).2
    ∧ Event.installDeps true ∈ (build wZero).2 := by
  refine ⟨zero_install_bypasses_cache.1 { contents := ["c"], key := none } [7], ?_, ?_⟩
  · exact (zero_install_bypasses_cache.2 wZero pkgOk metaOk v12219 .yarn1 "cachedir"
      rfl rfl rfl rfl rfl rfl rfl).1
  · exact (zero_install_bypasses_cache.2 wZero pkgOk metaOk v12219 .yarn1 "cachedir"
      rfl rfl rfl rfl rfl rfl rfl).2.1

/-- C6: installing a fresh tool release verifies the fetched artifact's
checksum against the catalog entry; any mismatch fails with
`checksumMismatch` and leaves the destination layer unmodified. -/
theorem checksum_mismatch_rejected (hash : List Nat → List Nat) (release : Release)
    (bytes : List Nat) (layer : ToolLayer)
    (hfresh : layer.installedVersion ≠ some release.version)
    (hmis : hash bytes ≠ release.checksum) :
    installTool hash release (.ok bytes) layer =
      (layer, .error (.checksumMismatch release.checksum (hash bytes))) := by
  simp [installTool, hfresh, hmis]

/-- Witness for C6: a concrete artifact whose bytes hash differently from
the catalog checksum is rejected and the layer is returned unchanged. -/
theorem checksum_mismatch_rejected_witness :
    installTool id r1220 (.ok [9]) { dir := "d", contents := [], installedVersion := none } =
      ({ dir := "d", contents := [], installedVersion := none },
        .error (.checksumMismatch [1] [9])) :=
  checksum_mismatch_rejected id r1220 [9]
    { dir := "d", contents := [], installedVersion := none } (by decide) (by decide)

/-- C8: the build-script phase iterates the manifest's declared scripts in
declaration order; an explicitly false opt-out signal skips every script
without error, an absent signal (or explicit true) runs them, and the first
script failing aborts with the fatal `buildScript` error. -/
theorem build_scripts_policy (w : BuildWorld) (env : Env) (scripts : List String) :
    (scriptsPhase w env (some false) scripts = (.ok (), scripts.map Event.skipScript))
    ∧ (∀ en, en ≠ some false →
        (∀ s ∈ scripts, w.yarnRunCmd env s = .ok ()) →
        scriptsPhase w env en scripts = (.ok (), scripts.map Event.runScript))
    ∧ ∀ (en : Option Bool) (pre : List String) (s : String) (rest : List String) (e : CmdError),
        en ≠ some false →
        scripts = pre ++ s :: rest →
        (∀ t ∈ pre, w.yarnRunCmd env t = .ok ()) →
        w.yarnRunCmd env s = .error e →
        scriptsPhase w env en scripts =
          (.error (.buildScript e), pre.map Event.runScript ++ [Event.runScript s]) := by
  refine ⟨scriptsPhase_disabled w env scripts, ?_, ?_⟩
  · intro en hen hall
    exact scriptsPhase_all_ok w env en hen scripts hall
  · intro en pre s rest e hen hsplit hall hfail
    subst hsplit
    exact scriptsPhase_first_fail w env en hen pre s rest e hall hfail

/-- Witness for C8: with the opt-out signal explicitly false both scripts
are skipped without error; with the signal absent both run in order. -/
theorem build_scripts_policy_witness :
    scriptsPhase wOk [] (some false) ["a", "b"] =
      (.ok (), [.skipScript "a", .skipScript "b"])
    ∧ scriptsPhase wOk [] none ["a", "b"] =
      (.ok (), [.runScript "a", .runScript "b"]) := by
  constructor
  · exact (build_scripts_policy wOk [] ["a", "b"]).1
  · exact (build_scripts_policy wOk [] ["a", "b"]).2.1 none (by simp) (fun s _ => rfl)

/-- C9: the error handler maps every buildpack error variant — the mapping
is total over the closed variant set — to one of the small fixed set of
user-facing category headers, and the message body preserves the error's
own display text (which carries the underlying cause). -/
theorem on_error_fixed_categories :
    ∀ e : YarnBuildpackError,
      (onError e).1 ∈ errorHeaders ∧ (onError e).2 = YarnBuildpackError.display e := by
  intro e
  cases e <;> exact ⟨by simp [onError, errorHeaders], rfl⟩

/-- C1: the version-resolution-and-install phase runs only when the yarn
version query fails with a spawn failure: on a successful query the
existing installation is used as-is (the inventory is never parsed, no
install happens, and the build result is independent of the manifest's
declared engine range); on a spawn failure the install branch is entered;
any other version-query failure is the fatal `yarnVersionDetect` error. -/
theorem build_install_branch_only_on_spawn (w : BuildWorld) (pkg : PackageJson)
    (meta : NodeBuildScriptsMetadata)
    (hp : w.packageJson = .ok pkg) (hm : w.scriptsMetadata = .ok meta) :
    (∀ v, w.yarnVersionCmd w.env0 = .ok v →
      Event.parseInventory ∉ (build w).2
      ∧ (∀ ver, Event.installYarnCli ver ∉ (build w).2)
      ∧ ∀ (w2 : BuildWorld) (pkg2 : PackageJson),
          w2.packageJson = .ok pkg2 →
          w2.env0 = w.env0 →
          w2.scriptsMetadata = w.scriptsMetadata →
          w2.yarnVersionCmd = w.yarnVersionCmd →
          w2.disableGlobalCacheCmd = w.disableGlobalCacheCmd →
          w2.getCacheCmd = w.getCacheCmd →
          w2.cachePopulated = w.cachePopulated →
          w2.configureCacheStep = w.configureCacheStep →
          w2.yarnInstallCmd = w.yarnInstallCmd →
          w2.yarnRunCmd = w.yarnRunCmd →
          w2.procfileExists = w.procfileExists →
          pkg2.buildScripts = pkg.buildScripts →
          pkg2.hasStartScript = pkg.hasStartScript →
          build w2 = build w)
    ∧ (∀ m, w.yarnVersionCmd w.env0 = .error (.spawn m) →
        Event.parseInventory ∈ (build w).2)
    ∧ ∀ e, (∀ m, e ≠ CmdError.spawn m) → w.yarnVersionCmd w.env0 = .error e →
        build w = (.error (.yarnVersionDetect e), [.versionQuery]) := by
  refine ⟨?_, ?_, ?_⟩
  · intro v hv
    cases haft : afterVersion w pkg meta v w.env0 with
    | mk res tr2 =>
      have hb : build w = (res, .versionQuery :: tr2) := by
        simp [build, hp, hm, hv, haft]
      refine ⟨?_, ?_, ?_⟩
      · rw [hb]
        intro hmem
        rcases List.mem_cons.mp hmem with h | h
        · exact Event.noConfusion h
        · rcases afterVersion_events w pkg meta v w.env0 _ (by rw [haft]; exact h) with
            h1 | h1 | h1 | ⟨b, h1⟩ | ⟨s, h1⟩ | ⟨s, h1⟩ | h1 <;> exact Event.noConfusion h1
      · intro ver
        rw [hb]
        intro hmem
        rcases List.mem_cons.mp hmem with h | h
        · exact Event.noConfusion h
        · rcases afterVersion_events w pkg meta v w.env0 _ (by rw [haft]; exact h) with
            h1 | h1 | h1 | ⟨b, h1⟩ | ⟨s, h1⟩ | ⟨s, h1⟩ | h1 <;> exact Event.noConfusion h1
      · intro w2 pkg2 hp2 henv hsm hyv hdg hgc hcp hcs hyi hyr hpf hbs hst
        have hm2 : w2.scriptsMetadata = .ok meta := by
          rw [hsm]
          exact hm
        have hv2 : w2.yarnVersionCmd w2.env0 = .ok v := by
          rw [hyv, henv]
          exact hv
        have haft2 : afterVersion w2 pkg2 meta v w2.env0 = (res, tr2) := by
          rw [henv]
          exact Eq.trans
            (afterVersion_congr w2 w pkg2 pkg meta v w.env0 hdg hgc hcp hcs hyi hyr hpf hbs hst)
            haft
        have hb2 : build w2 = (res, .versionQuery :: tr2) := by
          simp [build, hp2, hm2, hv2, haft2]
        rw [hb2, hb]
  · intro m hv
    cases hip : installPhase w pkg w.env0 with
    | mk ipr ipt =>
      have hmem : Event.parseInventory ∈ ipt := by
        have := installPhase_parseInventory w pkg w.env0
        rw [hip] at this
        exact this
      cases ipr with
      | error e =>
        have hb : build w = (.error e, .versionQuery :: ipt) := by
          simp [build, hp, hm, hv, hip]
        rw [hb]
        exact List.mem_cons_of_mem _ hmem
      | ok pr =>
        cases pr with
        | mk v2 env2 =>
          cases haft : afterVersion w pkg meta v2 env2 with
          | mk res tr2 =>
            have hb : build w = (res, .versionQuery :: (ipt ++ tr2)) := by
              simp [build, hp, hm, hv, hip, haft]
            rw [hb]
            exact List.mem_cons_of_mem _ (List.mem_append_left _ hmem)
  · intro e hnsp hv
    cases e with
    | spawn m => exact absurd rfl (hnsp m)
    | nonZeroExit c s => simp [build, hp, hm, hv]
    | unparsableOutput o => simp [build, hp, hm, hv]

/-- Witness for C1: a non-spawn version-query failure is fatal
(`yarnVersionDetect`, no install), and on a successful query the inventory
is never parsed. -/
theorem build_install_branch_only_on_spawn_witness :
    build wNonZero = (.error (.yarnVersionDetect (.nonZeroExit 1 "boom")), [.versionQuery])
    ∧ Event.parseInventory ∉ (build wOk).2 := by
  constructor
  · exact (build_install_branch_only_on_spawn wNonZero pkgOk metaOk rfl rfl).2.2
      (.nonZeroExit 1 "boom") (fun m h => CmdError.noConfusion h) rfl
  · exact ((build_install_branch_only_on_spawn wOk pkgOk metaOk rfl rfl).1 v12219 rfl).1

/-- C2 counterexample: in `wOk` the embedded catalog document is
unparsable, yet the build succeeds and runs every phase (cache setup,
dependency install, build script, launch emission) — so an unparsable
catalog does not abort every build before any phase runs. -/
theorem catalog_parse_failure_not_always_fatal :
    wOk.inventoryToml = .error { msg := "bad" }
    ∧ (build wOk).1 = .ok { processes := [webProcess] }
    ∧ (build wOk).2 =
        [.versionQuery, .disableGlobalCache, .getCacheDir, .configureCache,
         .installDeps false, .runScript "build", .emitLaunch] :=
  ⟨rfl, rfl, rfl⟩

/-- C2 (amended): a catalog parse failure is fatal exactly on the install
path — when the version query spawn-fails and the embedded catalog is
unparsable, the build aborts with the `inventoryParse` error immediately
after the version query and the parse attempt, before version resolution,
tool install, cache setup, dependency install, scripts, or launch
emission. -/
theorem inventory_parse_fatal_on_install_path (w : BuildWorld) (pkg : PackageJson)
    (meta : NodeBuildScriptsMetadata) (m : String) (e : TomlError)
    (hp : w.packageJson = .ok pkg) (hm : w.scriptsMetadata = .ok meta)
    (hv : w.yarnVersionCmd w.env0 = .error (.spawn m))
    (he : w.inventoryToml = .error e) :
    build w = (.error (.inventoryParse e), [.versionQuery, .parseInventory]) := by
  simp [build, hp, hm, hv, installPhase, he]

/-- Witness for the amended C2 at the concrete spawn-failure world with an
unparsable catalog. -/
theorem inventory_parse_fatal_on_install_path_witness :
    build wSpawnBadToml =
      (.error (.inventoryParse { msg := "bad" }), [.versionQuery, .parseInventory]) :=
  inventory_parse_fatal_on_install_path wSpawnBadToml pkgOk metaOk "yarn: not found"
    { msg := "bad" } rfl rfl rfl rfl

/-- C7: a successful build emits the default web process (`yarn start`,
marked default) exactly when no Procfile exists and the manifest declares a
start script; in every other case no process is emitted; and at most one
process is ever emitted. -/
theorem default_web_process_iff (w : BuildWorld) (pkg : PackageJson)
    (res : BuildResult) (tr : List Event)
    (hp : w.packageJson = .ok pkg) (hb : build w = (.ok res, tr)) :
    (res.processes = [webProcess] ↔ (w.procfileExists = false ∧ pkg.hasStartScript = true))
    ∧ ((w.procfileExists = true ∨ pkg.hasStartScript = false) → res.processes = [])
    ∧ res.processes.length ≤ 1 := by
  obtain ⟨pkg2, hp2, hres⟩ := build_ok w res tr hb
  rw [hp] at hp2
  injection hp2 with hpe
  subst hpe
  subst hres
  unfold launchPhase
  cases hpf : w.procfileExists with
  | true => simp [webProcess]
  | false =>
    cases hst : pkg.hasStartScript with
    | true => simp [webProcess]
    | false => simp [webProcess]

/-- Witness for C7 at the concrete world `wOk` (no Procfile, start script
present): the successful build emits exactly the default web process. -/
theorem default_web_process_iff_witness :
    ({ processes := [webProcess] } : BuildResult).processes = [webProcess]
    ∧ wOk.procfileExists = false ∧ pkgOk.hasStartScript = true := by
  have h := default_web_process_iff wOk pkgOk { processes := [webProcess] }
    [.versionQuery, .disableGlobalCache, .getCacheDir, .configureCache,
     .installDeps false, .runScript "build", .emitLaunch] rfl rfl
  exact ⟨h.1.mpr ⟨rfl, rfl⟩, rfl, rfl⟩

/-- C10: on the install path, after the resolved release is installed and
its environment mutations merged, the yarn version is re-queried in the
updated environment; if this second query fails for any reason the build
aborts with the fatal `yarnVersionDetect` error, and the install step was
attempted exactly once (no second installation). -/
theorem requery_failure_fatal_no_reinstall (w : BuildWorld) (pkg : PackageJson)
    (meta : NodeBuildScriptsMetadata) (m : String) (inv : Inventory)
    (range : Requirement) (release : Release) (toolEnv : ToolEnv) (e : CmdError)
    (hp : w.packageJson = .ok pkg) (hm : w.scriptsMetadata = .ok meta)
    (hv1 : w.yarnVersionCmd w.env0 = .error (.spawn m))
    (hinv : w.inventoryToml = .ok inv)
    (hrange : pkg.yarnEngineRange = some range)
    (hres : inv.resolve range = some release)
    (hinst : w.installYarnStep release = .ok toolEnv)
    (hv2 : w.yarnVersionCmd (toolEnv.apply w.env0) = .error e) :
    build w =
      (.error (.yarnVersionDetect e),
       [.versionQuery, .parseInventory, .resolveVersion,
        .installYarnCli release.version, .requeryVersion])
    ∧ (build w).2.count (Event.installYarnCli release.version) = 1 := by
  have hb : build w =
      (.error (.yarnVersionDetect e),
       [.versionQuery, .parseInventory, .resolveVersion,
        .installYarnCli release.version, .requeryVersion]) := by
    simp [build, hp, hm, hv1, installPhase, hinv, hrange, hres, hinst, hv2]
  refine ⟨hb, ?_⟩
  rw [hb]
  simp [List.count_cons]

/-- Witness for C10 at the concrete world `wRequeryFail`: the re-query
fails with a non-zero exit, the build aborts with `yarnVersionDetect`, and
the trace contains exactly one install event. -/
theorem requery_failure_fatal_no_reinstall_witness :
    build wRequeryFail =
      (.error (.yarnVersionDetect (.nonZeroExit 1 "requery boom")),
       [.versionQuery, .parseInventory, .resolveVersion,
        .installYarnCli r1221.version, .requeryVersion]) :=
  (requery_failure_fatal_no_reinstall wRequeryFail
    { pkgOk with yarnEngineRange := some req122x } metaOk "yarn: not found"
    specCatalog req122x r1221 { binDir := "/layers/yarn/bin" }
    (.nonZeroExit 1 "requery boom") rfl rfl rfl rfl rfl rfl rfl rfl).1

end YarnBp
